import Mathlib

/-!
# Verification of `run.py` (OmBlog sync-and-push helper)

A shallow embedding of `run.py`, a linear publish pipeline:
path checks, rsync mirror, optional image-helper script, hugo build,
git add / commit / branch-detect / push, with a persisted commit counter.

External effects (directory checks, file reads, child-process exit codes
and outputs) are supplied by an oracle `Env`.  The pipeline is modelled as
a function from `Env` to a trace of effect events plus an outcome, and the
Python top-level (`__main__` guard plus interpreter exit semantics) maps
the outcome to a process result.
-/

/-! ## Configuration constants (run.py lines 20-25) -/

def OBS_POSTS : String := "/Users/omkakkad/Obsidian/Om/posts"

def BLOG_ROOT : String := "/Users/omkakkad/Obsidian/OmBlog"

def DEST_POSTS : String := BLOG_ROOT ++ "/content/posts"

def IMAGES_PY : String := BLOG_ROOT ++ "/images.py"

def COUNTER_FN : String := BLOG_ROOT ++ "/.commit_counter"

/-! ## Python primitives

`pyStrip` models `str.strip()` (whitespace trim on both ends).
`pyInt` models `int(s)` on an already-stripped string: an optional sign
followed by a nonempty run of decimal digits; any other shape raises
`ValueError`, modelled as `none`.  (Digit-group underscores and non-ASCII
digits, which CPython also accepts, are not modelled; no claim depends on
them.) -/

def pyStrip (s : String) : String :=
  String.mk
    (((s.data.dropWhile Char.isWhitespace).reverse.dropWhile Char.isWhitespace).reverse)

def digitsToNat (cs : List Char) : Option Nat :=
  if cs.isEmpty then none
  else
    cs.foldl
      (fun acc c =>
        match acc with
        | none => none
        | some n => if c.isDigit then some (n * 10 + (c.toNat - 48)) else none)
      (some 0)

def pyInt (s : String) : Option Int :=
  match s.data with
  | '-' :: rest => (digitsToNat rest).map (fun n => -(n : Int))
  | '+' :: rest => (digitsToNat rest).map (fun n => (n : Int))
  | cs => (digitsToNat cs).map (fun n => (n : Int))

/-! ## The effect oracle

One run's view of the outside world: `isDir` models `Path.is_dir()`,
`pathExists` models `Path.exists()`, `readText` models `Path.read_text()`,
`runExit` gives the exit status of a command run via `subprocess.run`
(args, optional cwd), and `outExit`/`outText` give the exit status and
captured stdout of a `subprocess.check_output` call. -/

structure Env where
  isDir : String → Bool
  pathExists : String → Bool
  readText : String → String
  runExit : List String → Option String → Int
  outExit : List String → Option String → Int
  outText : List String → Option String → String

/-! ## Command lines built by run.py -/

def rsyncArgs : List String :=
  ["rsync", "-av", "--delete", OBS_POSTS ++ "/", DEST_POSTS]

def imagesArgs : List String := ["python3", IMAGES_PY]

def hugoArgs : List String := ["hugo", "--gc", "--minify", "-b", "http://localhost"]

def gitAddArgs : List String := ["git", "add", "."]

def gitCommitArgs (msg : String) : List String := ["git", "commit", "-m", msg]

def branchArgs : List String := ["git", "rev-parse", "--abbrev-ref", "HEAD"]

def gitPushArgs (branch : String) : List String := ["git", "push", "origin", branch]

/-! ## Events and outcomes

A trace records, in order, every effectful step `main` performs:
`cmd` is a `run(...)` invocation (subprocess.run), `queryCmd` is the
`subprocess.check_output` branch query, `writeFile` is
`COUNTER_FN.write_text(...)`, `sleepEv` is `time.sleep(PAUSE)`. -/

inductive Event where
  | cmd (args : List String) (cwd : Option String)
  | queryCmd (args : List String) (cwd : Option String)
  | writeFile (path : String) (content : String)
  | sleepEv
  deriving DecidableEq, Repr

/-- How `main()` ends: normal return carrying the commit message and the
pushed branch (line 78 prints them), a `SystemExit` with its message
(lines 45/47), a `subprocess.CalledProcessError` carrying the child's exit
code (raised inside `run` or `check_output`), or the `ValueError` raised by
`int(...)` in `next_commit_msg`. -/
inductive Outcome where
  | ok (msg : String) (branch : String)
  | systemExit (msg : String)
  | cmdFailed (code : Int)
  | valueError
  deriving DecidableEq, Repr

/-! ## The commit counter (run.py lines 33-40) -/

/-- The `last` value read by `next_commit_msg`: `0` when the counter file is
absent; otherwise `int(content.strip() or 0)`, i.e. `0` when the stripped
content is empty and the `int(...)` parse otherwise (`none` = `ValueError`). -/
def counterLast (env : Env) : Option Int :=
  if env.pathExists COUNTER_FN then
    let s := pyStrip (env.readText COUNTER_FN)
    if s = "" then some 0 else pyInt s
  else some 0

/-- `next_commit_msg()` (lines 33-40).  On success, returns the message
`"Post update {new}"` together with the text written (overwriting) to the
counter file, namely `str(new)` with `new = last + 1`.  `Except.error ()`
is the uncaught `ValueError` from `int(...)`. -/
def next_commit_msg (env : Env) : Except Unit (String × String) :=
  match counterLast env with
  | none => Except.error ()
  | some last =>
      let new := last + 1
      Except.ok ("Post update " ++ toString new, toString new)

/-- The branch name `main()` computes at lines 72-75:
`check_output(["git","rev-parse","--abbrev-ref","HEAD"]).decode().strip()`. -/
def branchOf (env : Env) : String :=
  pyStrip (env.outText branchArgs (some BLOG_ROOT))

/-! ## The pipeline (run.py `main`, lines 43-78)

`mainRun` returns the trace of events performed and the outcome.  It is
split at the source's own step boundaries: `afterAdd` is lines 68-78
(counter, commit, branch query, push), `afterImages` is lines 62-67
(hugo build, sleep, git add), and `mainRun` is lines 44-61 (path checks,
rsync, optional images step) chaining into them.  Each piece takes the
trace accumulated so far. -/

def afterAdd (env : Env) (t : List Event) : List Event × Outcome :=
  match next_commit_msg env with
  | Except.error _ => (t, Outcome.valueError)
  | Except.ok (msg, newC) =>
      let t6 := t ++ [Event.writeFile COUNTER_FN newC,
                      Event.cmd (gitCommitArgs msg) (some BLOG_ROOT)]
      let c6 := env.runExit (gitCommitArgs msg) (some BLOG_ROOT)
      if c6 ≠ 0 then (t6, Outcome.cmdFailed c6)
      else
        let t7 := t6 ++ [Event.queryCmd branchArgs (some BLOG_ROOT)]
        let c7 := env.outExit branchArgs (some BLOG_ROOT)
        if c7 ≠ 0 then (t7, Outcome.cmdFailed c7)
        else
          let branch := branchOf env
          let t8 := t7 ++ [Event.cmd (gitPushArgs branch) (some BLOG_ROOT)]
          let c8 := env.runExit (gitPushArgs branch) (some BLOG_ROOT)
          if c8 ≠ 0 then (t8, Outcome.cmdFailed c8)
          else (t8, Outcome.ok msg branch)

def afterImages (env : Env) (t : List Event) : List Event × Outcome :=
  let t4 := t ++ [Event.cmd hugoArgs (some BLOG_ROOT)]
  let c4 := env.runExit hugoArgs (some BLOG_ROOT)
  if c4 ≠ 0 then (t4, Outcome.cmdFailed c4)
  else
    let t5 := t4 ++ [Event.sleepEv, Event.cmd gitAddArgs (some BLOG_ROOT)]
    let c5 := env.runExit gitAddArgs (some BLOG_ROOT)
    if c5 ≠ 0 then (t5, Outcome.cmdFailed c5)
    else afterAdd env t5

def mainRun (env : Env) : List Event × Outcome :=
  if env.isDir OBS_POSTS = false then
    ([], Outcome.systemExit ("Obsidian posts path not found: " ++ OBS_POSTS))
  else if env.isDir BLOG_ROOT = false then
    ([], Outcome.systemExit ("Hugo project path not found: " ++ BLOG_ROOT))
  else
    let c1 := env.runExit rsyncArgs none
    if c1 ≠ 0 then ([Event.cmd rsyncArgs none], Outcome.cmdFailed c1)
    else if env.pathExists IMAGES_PY then
      let c2 := env.runExit imagesArgs (some BLOG_ROOT)
      if c2 ≠ 0 then
        ([Event.cmd rsyncArgs none, Event.sleepEv,
          Event.cmd imagesArgs (some BLOG_ROOT)], Outcome.cmdFailed c2)
      else
        afterImages env
          [Event.cmd rsyncArgs none, Event.sleepEv,
           Event.cmd imagesArgs (some BLOG_ROOT), Event.sleepEv]
    else
      afterImages env [Event.cmd rsyncArgs none, Event.sleepEv]

/-! ## Process-level behaviour (run.py lines 80-84 plus CPython semantics)

The `__main__` guard wraps `main()` in `try/except subprocess.CalledProcessError`.
A caught `CalledProcessError` prints the `❌` line and the script then ends
normally, so the interpreter exits with status 0.  An uncaught `SystemExit`
carrying a string message makes the interpreter print the message and exit
with status 1, no traceback.  An uncaught `ValueError` makes the interpreter
print a traceback and exit with status 1.  Normal return exits 0, after
`main` printed the `✅` success line (line 78). -/

structure ProcResult where
  exitStatus : Nat
  finalLine : String
  tracebackShown : Bool
  caughtByHandler : Bool
  deriving DecidableEq, Repr

def pythonExit : Outcome → ProcResult
  | Outcome.ok msg branch =>
      ⟨0, "✅  Done!  (" ++ msg ++ " → pushed to " ++ branch ++ ")", false, false⟩
  | Outcome.systemExit m => ⟨1, m, false, false⟩
  | Outcome.cmdFailed c =>
      ⟨0, "❌  Command failed with exit-code " ++ toString c, false, true⟩
  | Outcome.valueError => ⟨1, "Traceback: ValueError", true, false⟩

def processRun (env : Env) : ProcResult := pythonExit (mainRun env).2

/-! ## Trace analysis helpers -/

/-- Events that belong to the publish (version-control) phase: any `git`
command run via `run(...)` or the `check_output` branch query. -/
def isGitCmd : Event → Bool
  | Event.cmd ("git" :: _) _ => true
  | Event.queryCmd _ _ => true
  | _ => false

/-- A write to the counter file. -/
def isCounterWrite : Event → Bool
  | Event.writeFile p _ => p = COUNTER_FN
  | _ => false

/-- Effect of one event on the counter file's content (`none` = absent). -/
def applyEvent (c : Option String) (e : Event) : Option String :=
  match e with
  | Event.writeFile p s => if p = COUNTER_FN then some s else c
  | _ => c

/-- Counter-file content after a trace runs from initial content `init`. -/
def counterAfter (init : Option String) (t : List Event) : Option String :=
  t.foldl applyEvent init

/-- The counter file's content before the run, as the oracle sees it. -/
def initCounter (env : Env) : Option String :=
  if env.pathExists COUNTER_FN then some (env.readText COUNTER_FN) else none

/-- The counter file's content at the moment `git add .` is invoked:
fold the trace prefix strictly before the `git add` event. -/
def stagedAtAdd (env : Env) : Option String :=
  counterAfter (initCounter env)
    ((mainRun env).1.takeWhile
      (fun e => decide (e ≠ Event.cmd gitAddArgs (some BLOG_ROOT))))

/-- The trace of a run that reaches `git add .` successfully
(everything `main` does before `next_commit_msg` is called). -/
def preTrace (env : Env) : List Event :=
  [Event.cmd rsyncArgs none, Event.sleepEv] ++
  (if env.pathExists IMAGES_PY then
     [Event.cmd imagesArgs (some BLOG_ROOT), Event.sleepEv] else []) ++
  [Event.cmd hugoArgs (some BLOG_ROOT), Event.sleepEv,
   Event.cmd gitAddArgs (some BLOG_ROOT)]

/-- The publish-phase operations appearing in a trace, in order, abstracted
to their names. -/
def pubOps (t : List Event) : List String :=
  t.filterMap fun e =>
    match e with
    | Event.cmd ("git" :: "add" :: _) _ => some "add"
    | Event.cmd ("git" :: "commit" :: _) _ => some "commit"
    | Event.queryCmd ("git" :: "rev-parse" :: _) _ => some "branch"
    | Event.cmd ("git" :: "push" :: _) _ => some "push"
    | _ => none

/-! ## Concrete environments (used to witness the theorems) -/

/-- An environment builder: both directories exist; `imagesThere` decides
whether `images.py` exists; `counter` is the counter file (absent or its
content); every command run via `run` exits with `exitOf args`; the branch
query succeeds printing `branchText`. -/
def mkEnv (imagesThere : Bool) (counter : Option String)
    (exitOf : List String → Int) (branchText : String) : Env where
  isDir := fun _ => true
  pathExists := fun p =>
    if p = IMAGES_PY then imagesThere
    else if p = COUNTER_FN then counter.isSome
    else false
  readText := fun p =>
    if p = COUNTER_FN then counter.getD "" else ""
  runExit := fun args _ => exitOf args
  outExit := fun _ _ => 0
  outText := fun _ _ => branchText

/-- All commands succeed, no images.py, no counter file, branch `main`. -/
def envAllOk : Env := mkEnv false none (fun _ => 0) "main\n"

/-- Counter file holds `"41"`, images.py present, everything succeeds. -/
def env41 : Env := mkEnv true (some "41") (fun _ => 0) "main\n"

/-- Counter file holds garbage `"abc"`; every command succeeds. -/
def envBadCounter : Env := mkEnv false (some "abc") (fun _ => 0) "main\n"

/-- rsync fails with exit code 2; everything else would succeed. -/
def envRsyncFail : Env :=
  mkEnv false none (fun args => if args = rsyncArgs then 2 else 0) "main\n"

/-- hugo fails with exit code 255; earlier steps succeed. -/
def envHugoFail : Env :=
  mkEnv true none (fun args => if args = hugoArgs then 255 else 0) "main\n"

/-- `git commit` fails with exit code 1 (e.g. nothing to commit); counter
file holds `"7"`; earlier steps succeed. -/
def envCommitFail : Env :=
  mkEnv false (some "7")
    (fun args => if args = gitCommitArgs "Post update 8" then 1 else 0) "main\n"

/-- `git push` fails with exit code 128; counter file holds `"7"`. -/
def envPushFail : Env :=
  mkEnv false (some "7")
    (fun args => if args = gitPushArgs "main" then 128 else 0) "main\n"

/-- The Obsidian posts directory is missing. -/
def envNoObsDir : Env :=
  { mkEnv false none (fun _ => 0) "main\n" with
    isDir := fun p => decide (p ≠ OBS_POSTS) }

/-! ## Helper lemmas -/

/-- When both directory checks pass and rsync, the (possibly skipped)
images step, hugo and `git add` all succeed, `main` reaches the
publish-phase tail `afterAdd` with exactly the events of `preTrace`
performed. -/
theorem mainRun_reach_add (env : Env)
    (h1 : env.isDir OBS_POSTS = true) (h2 : env.isDir BLOG_ROOT = true)
    (h3 : env.runExit rsyncArgs none = 0)
    (h4 : env.pathExists IMAGES_PY = true → env.runExit imagesArgs (some BLOG_ROOT) = 0)
    (h5 : env.runExit hugoArgs (some BLOG_ROOT) = 0)
    (h6 : env.runExit gitAddArgs (some BLOG_ROOT) = 0) :
    mainRun env = afterAdd env (preTrace env) := by
  by_cases him : env.pathExists IMAGES_PY
  · simp [mainRun, afterImages, preTrace, h1, h2, h3, h4 him, h5, h6, him]
  · simp [mainRun, afterImages, preTrace, h1, h2, h3, h5, h6, him]

/-- Success path of the publish tail: with a parseable counter and all of
commit, branch query and push succeeding, the tail appends exactly the
counter write, the commit, the branch query and the push, and returns
the success outcome. -/
theorem afterAdd_ok (env : Env) (t : List Event) (N : Int)
    (h7 : counterLast env = some N)
    (h8 : env.runExit (gitCommitArgs ("Post update " ++ toString (N + 1))) (some BLOG_ROOT) = 0)
    (h9 : env.outExit branchArgs (some BLOG_ROOT) = 0)
    (h10 : env.runExit (gitPushArgs (branchOf env)) (some BLOG_ROOT) = 0) :
    afterAdd env t =
      (t ++ [Event.writeFile COUNTER_FN (toString (N + 1)),
             Event.cmd (gitCommitArgs ("Post update " ++ toString (N + 1))) (some BLOG_ROOT),
             Event.queryCmd branchArgs (some BLOG_ROOT),
             Event.cmd (gitPushArgs (branchOf env)) (some BLOG_ROOT)],
       Outcome.ok ("Post update " ++ toString (N + 1)) (branchOf env)) := by
  simp [afterAdd, next_commit_msg, h7, h8, h9, h10]

/-- The publish tail only appends events: apart from the events of `t`, the
resulting trace holds only counter writes, git commands and the branch
query. -/
theorem afterAdd_extends (env : Env) (t : List Event) :
    ∃ r, (afterAdd env t).1 = t ++ r ∧
      ∀ e ∈ r, isGitCmd e = true ∨ isCounterWrite e = true := by
  cases hnm : next_commit_msg env with
  | error e => exact ⟨[], by simp [afterAdd, hnm], by simp⟩
  | ok p =>
    obtain ⟨msg, newC⟩ := p
    by_cases h8 : env.runExit (gitCommitArgs msg) (some BLOG_ROOT) = 0
    · by_cases h9 : env.outExit branchArgs (some BLOG_ROOT) = 0
      · by_cases h10 : env.runExit (gitPushArgs (branchOf env)) (some BLOG_ROOT) = 0
        · refine ⟨[Event.writeFile COUNTER_FN newC,
              Event.cmd (gitCommitArgs msg) (some BLOG_ROOT),
              Event.queryCmd branchArgs (some BLOG_ROOT),
              Event.cmd (gitPushArgs (branchOf env)) (some BLOG_ROOT)], ?_, ?_⟩
          · simp [afterAdd, hnm, h8, h9, h10]
          · simp [isGitCmd, isCounterWrite, gitCommitArgs, gitPushArgs, COUNTER_FN]
        · refine ⟨[Event.writeFile COUNTER_FN newC,
              Event.cmd (gitCommitArgs msg) (some BLOG_ROOT),
              Event.queryCmd branchArgs (some BLOG_ROOT),
              Event.cmd (gitPushArgs (branchOf env)) (some BLOG_ROOT)], ?_, ?_⟩
          · simp [afterAdd, hnm, h8, h9, h10]
          · simp [isGitCmd, isCounterWrite, gitCommitArgs, gitPushArgs, COUNTER_FN]
      · refine ⟨[Event.writeFile COUNTER_FN newC,
            Event.cmd (gitCommitArgs msg) (some BLOG_ROOT),
            Event.queryCmd branchArgs (some BLOG_ROOT)], ?_, ?_⟩
        · simp [afterAdd, hnm, h8, h9]
        · simp [isGitCmd, isCounterWrite, gitCommitArgs, COUNTER_FN]
    · refine ⟨[Event.writeFile COUNTER_FN newC,
          Event.cmd (gitCommitArgs msg) (some BLOG_ROOT)], ?_, ?_⟩
      · simp [afterAdd, hnm, h8]
      · simp [isGitCmd, isCounterWrite, gitCommitArgs, COUNTER_FN]

/-- The build-then-stage segment only appends events, starting with the
hugo build command; whatever follows is a sleep, a git command, the branch
query or a counter write. -/
theorem afterImages_extends (env : Env) (t : List Event) :
    ∃ r, (afterImages env t).1 = t ++ Event.cmd hugoArgs (some BLOG_ROOT) :: r ∧
      ∀ e ∈ r, isGitCmd e = true ∨ isCounterWrite e = true ∨ e = Event.sleepEv := by
  by_cases h5 : env.runExit hugoArgs (some BLOG_ROOT) = 0
  · by_cases h6 : env.runExit gitAddArgs (some BLOG_ROOT) = 0
    · obtain ⟨r, hr, hall⟩ := afterAdd_extends env
        (t ++ [Event.cmd hugoArgs (some BLOG_ROOT), Event.sleepEv,
               Event.cmd gitAddArgs (some BLOG_ROOT)])
      refine ⟨[Event.sleepEv, Event.cmd gitAddArgs (some BLOG_ROOT)] ++ r, ?_, ?_⟩
      · have : (afterImages env t).1 = (afterAdd env
            (t ++ [Event.cmd hugoArgs (some BLOG_ROOT), Event.sleepEv,
                   Event.cmd gitAddArgs (some BLOG_ROOT)])).1 := by
          simp [afterImages, h5, h6]
        rw [this, hr]; simp
      · intro e he
        simp at he
        rcases he with he | he | he
        · exact Or.inr (Or.inr he)
        · subst he; exact Or.inl (by simp [isGitCmd, gitAddArgs])
        · rcases hall e he with ha | ha
          · exact Or.inl ha
          · exact Or.inr (Or.inl ha)
    · refine ⟨[Event.sleepEv, Event.cmd gitAddArgs (some BLOG_ROOT)], ?_, ?_⟩
      · simp [afterImages, h5, h6]
      · simp [isGitCmd, isCounterWrite, gitAddArgs]
  · exact ⟨[], by simp [afterImages, h5], by simp⟩

/-- Folding the counter over an appended trace. -/
theorem counterAfter_append (init : Option String) (s t : List Event) :
    counterAfter init (s ++ t) = counterAfter (counterAfter init s) t := by
  simp [counterAfter, List.foldl_append]

/-- A trace with no counter writes leaves the counter file unchanged. -/
theorem counterAfter_no_writes (init : Option String) (t : List Event)
    (h : ∀ e ∈ t, isCounterWrite e = false) : counterAfter init t = init := by
  induction t with
  | nil => rfl
  | cons e es ih =>
    have he : isCounterWrite e = false := h e (by simp)
    have hrest : ∀ e' ∈ es, isCounterWrite e' = false :=
      fun e' h' => h e' (List.mem_cons_of_mem _ h')
    have happ : applyEvent init e = init := by
      cases e with
      | writeFile p s =>
        simp [isCounterWrite] at he
        simp [applyEvent, he]
      | cmd args cwd => rfl
      | queryCmd args cwd => rfl
      | sleepEv => rfl
    calc counterAfter init (e :: es)
        = counterAfter (applyEvent init e) es := rfl
      _ = counterAfter init es := by rw [happ]
      _ = init := ih hrest

/-- Every event `main` performs before reaching the publish phase is a
command invocation or a sleep; none writes the counter file. -/
theorem preTrace_no_writes (env : Env) :
    ∀ e ∈ preTrace env, isCounterWrite e = false := by
  by_cases him : env.pathExists IMAGES_PY <;>
    simp [preTrace, him, isCounterWrite]

theorem pubOps_append (s t : List Event) :
    pubOps (s ++ t) = pubOps s ++ pubOps t := by
  simp [pubOps, List.filterMap_append]

/-- Publish operations performed by the publish tail, beyond those of the
accumulated trace: always an in-order prefix of commit, branch query,
push. -/
theorem pubOps_afterAdd (env : Env) (t : List Event) :
    ∃ s, pubOps (afterAdd env t).1 = pubOps t ++ s ∧
      s.isPrefixOf ["commit", "branch", "push"] = true := by
  cases hnm : next_commit_msg env with
  | error e => exact ⟨[], by simp [afterAdd, hnm], by decide⟩
  | ok p =>
    obtain ⟨msg, newC⟩ := p
    by_cases h8 : env.runExit (gitCommitArgs msg) (some BLOG_ROOT) = 0
    · by_cases h9 : env.outExit branchArgs (some BLOG_ROOT) = 0
      · by_cases h10 : env.runExit (gitPushArgs (branchOf env)) (some BLOG_ROOT) = 0
        · refine ⟨["commit", "branch", "push"], ?_, by decide⟩
          have h1 : (afterAdd env t).1 = t ++
              [Event.writeFile COUNTER_FN newC,
               Event.cmd (gitCommitArgs msg) (some BLOG_ROOT),
               Event.queryCmd branchArgs (some BLOG_ROOT),
               Event.cmd (gitPushArgs (branchOf env)) (some BLOG_ROOT)] := by
            simp [afterAdd, hnm, h8, h9, h10]
          rw [h1, pubOps_append]
          simp [pubOps, gitCommitArgs, gitPushArgs, branchArgs]
        · refine ⟨["commit", "branch", "push"], ?_, by decide⟩
          have h1 : (afterAdd env t).1 = t ++
              [Event.writeFile COUNTER_FN newC,
               Event.cmd (gitCommitArgs msg) (some BLOG_ROOT),
               Event.queryCmd branchArgs (some BLOG_ROOT),
               Event.cmd (gitPushArgs (branchOf env)) (some BLOG_ROOT)] := by
            simp [afterAdd, hnm, h8, h9, h10]
          rw [h1, pubOps_append]
          simp [pubOps, gitCommitArgs, gitPushArgs, branchArgs]
      · refine ⟨["commit", "branch"], ?_, by decide⟩
        have h1 : (afterAdd env t).1 = t ++
            [Event.writeFile COUNTER_FN newC,
             Event.cmd (gitCommitArgs msg) (some BLOG_ROOT),
             Event.queryCmd branchArgs (some BLOG_ROOT)] := by
          simp [afterAdd, hnm, h8, h9]
        rw [h1, pubOps_append]
        simp [pubOps, gitCommitArgs, branchArgs]
    · refine ⟨["commit"], ?_, by decide⟩
      have h1 : (afterAdd env t).1 = t ++
          [Event.writeFile COUNTER_FN newC,
           Event.cmd (gitCommitArgs msg) (some BLOG_ROOT)] := by
        simp [afterAdd, hnm, h8]
      rw [h1, pubOps_append]
      simp [pubOps, gitCommitArgs]

/-- Publish operations performed from the build step onward: always an
in-order prefix of stage, commit, branch query, push. -/
theorem pubOps_afterImages (env : Env) (t : List Event) :
    ∃ s, pubOps (afterImages env t).1 = pubOps t ++ s ∧
      s.isPrefixOf ["add", "commit", "branch", "push"] = true := by
  by_cases h5 : env.runExit hugoArgs (some BLOG_ROOT) = 0
  · by_cases h6 : env.runExit gitAddArgs (some BLOG_ROOT) = 0
    · obtain ⟨s, hs, hp⟩ := pubOps_afterAdd env
        (t ++ [Event.cmd hugoArgs (some BLOG_ROOT), Event.sleepEv,
               Event.cmd gitAddArgs (some BLOG_ROOT)])
      refine ⟨"add" :: s, ?_, ?_⟩
      · have h1 : (afterImages env t).1 = (afterAdd env
            (t ++ [Event.cmd hugoArgs (some BLOG_ROOT), Event.sleepEv,
                   Event.cmd gitAddArgs (some BLOG_ROOT)])).1 := by
          simp [afterImages, h5, h6]
        rw [h1, hs, pubOps_append]
        have h0 : pubOps [Event.cmd hugoArgs (some BLOG_ROOT), Event.sleepEv,
            Event.cmd gitAddArgs (some BLOG_ROOT)] = ["add"] := by decide
        rw [h0]
        simp
      · simpa [List.isPrefixOf] using hp
    · refine ⟨["add"], ?_, by decide⟩
      have h1 : (afterImages env t).1 = t ++
          [Event.cmd hugoArgs (some BLOG_ROOT), Event.sleepEv,
           Event.cmd gitAddArgs (some BLOG_ROOT)] := by
        simp [afterImages, h5, h6]
      rw [h1, pubOps_append]
      have h0 : pubOps [Event.cmd hugoArgs (some BLOG_ROOT), Event.sleepEv,
          Event.cmd gitAddArgs (some BLOG_ROOT)] = ["add"] := by decide
      rw [h0]
  · refine ⟨[], ?_, by decide⟩
    have h1 : (afterImages env t).1 = t ++ [Event.cmd hugoArgs (some BLOG_ROOT)] := by
      simp [afterImages, h5]
    rw [h1, pubOps_append]
    have h0 : pubOps [Event.cmd hugoArgs (some BLOG_ROOT)] = [] := by decide
    rw [h0]

/-- In any run whatsoever, the publish operations that actually execute
form an in-order prefix of stage, commit, branch query, push. -/
theorem pubOps_mainRun (env : Env) :
    (pubOps (mainRun env).1).isPrefixOf ["add", "commit", "branch", "push"] = true := by
  cases hd1 : env.isDir OBS_POSTS with
  | false =>
    have hm : (mainRun env).1 = [] := by simp [mainRun, hd1]
    rw [hm]; decide
  | true =>
  cases hd2 : env.isDir BLOG_ROOT with
  | false =>
    have hm : (mainRun env).1 = [] := by simp [mainRun, hd1, hd2]
    rw [hm]; decide
  | true =>
  by_cases h3 : env.runExit rsyncArgs none = 0
  · cases him : env.pathExists IMAGES_PY with
    | true =>
      by_cases h4 : env.runExit imagesArgs (some BLOG_ROOT) = 0
      · have hm : (mainRun env).1 = (afterImages env
            [Event.cmd rsyncArgs none, Event.sleepEv,
             Event.cmd imagesArgs (some BLOG_ROOT), Event.sleepEv]).1 := by
          simp [mainRun, hd1, hd2, h3, him, h4]
        obtain ⟨s, hs, hp⟩ := pubOps_afterImages env
          [Event.cmd rsyncArgs none, Event.sleepEv,
           Event.cmd imagesArgs (some BLOG_ROOT), Event.sleepEv]
        rw [hm, hs]
        have h0 : pubOps [Event.cmd rsyncArgs none, Event.sleepEv,
            Event.cmd imagesArgs (some BLOG_ROOT), Event.sleepEv] = [] := by decide
        rw [h0]
        simpa using hp
      · have hm : (mainRun env).1 =
            [Event.cmd rsyncArgs none, Event.sleepEv,
             Event.cmd imagesArgs (some BLOG_ROOT)] := by
          simp [mainRun, hd1, hd2, h3, him, h4]
        rw [hm]; decide
    | false =>
      have hm : (mainRun env).1 = (afterImages env
          [Event.cmd rsyncArgs none, Event.sleepEv]).1 := by
        simp [mainRun, hd1, hd2, h3, him]
      obtain ⟨s, hs, hp⟩ := pubOps_afterImages env
        [Event.cmd rsyncArgs none, Event.sleepEv]
      rw [hm, hs]
      have h0 : pubOps [Event.cmd rsyncArgs none, Event.sleepEv] = [] := by decide
      rw [h0]
      simpa using hp
  · have hm : (mainRun env).1 = [Event.cmd rsyncArgs none] := by
      simp [mainRun, hd1, hd2, h3]
    rw [hm]; decide

/-- Inversion of the publish tail: it only returns the success outcome when
the counter parses, and commit, branch query and push all exit 0; the
message and branch are then determined by the counter and the query. -/
theorem afterAdd_ok_inv (env : Env) (t : List Event) (msg branch : String)
    (h : (afterAdd env t).2 = Outcome.ok msg branch) :
    ∃ N, counterLast env = some N ∧
      msg = "Post update " ++ toString (N + 1) ∧
      env.runExit (gitCommitArgs msg) (some BLOG_ROOT) = 0 ∧
      env.outExit branchArgs (some BLOG_ROOT) = 0 ∧
      branch = branchOf env ∧
      env.runExit (gitPushArgs branch) (some BLOG_ROOT) = 0 := by
  cases h7 : counterLast env with
  | none => simp [afterAdd, next_commit_msg, h7] at h
  | some N =>
    by_cases h8 : env.runExit (gitCommitArgs ("Post update " ++ toString (N + 1)))
        (some BLOG_ROOT) = 0
    · by_cases h9 : env.outExit branchArgs (some BLOG_ROOT) = 0
      · by_cases h10 : env.runExit (gitPushArgs (branchOf env)) (some BLOG_ROOT) = 0
        · simp [afterAdd, next_commit_msg, h7, h8, h9, h10] at h
          obtain ⟨hmsg, hbr⟩ := h
          subst hmsg; subst hbr
          exact ⟨N, rfl, rfl, h8, h9, rfl, h10⟩
        · exfalso; simp [afterAdd, next_commit_msg, h7, h8, h9, h10] at h
      · exfalso; simp [afterAdd, next_commit_msg, h7, h8, h9] at h
    · exfalso; simp [afterAdd, next_commit_msg, h7, h8] at h

/-- Inversion of the build-then-stage segment: success of the whole tail
requires hugo and `git add` to exit 0, and then the publish tail succeeds. -/
theorem afterImages_inv (env : Env) (t : List Event) (msg branch : String)
    (h : (afterImages env t).2 = Outcome.ok msg branch) :
    env.runExit hugoArgs (some BLOG_ROOT) = 0 ∧
    env.runExit gitAddArgs (some BLOG_ROOT) = 0 ∧
    ∃ N, counterLast env = some N ∧
      msg = "Post update " ++ toString (N + 1) ∧
      env.runExit (gitCommitArgs msg) (some BLOG_ROOT) = 0 ∧
      env.outExit branchArgs (some BLOG_ROOT) = 0 ∧
      branch = branchOf env ∧
      env.runExit (gitPushArgs branch) (some BLOG_ROOT) = 0 := by
  by_cases h5 : env.runExit hugoArgs (some BLOG_ROOT) = 0
  · by_cases h6 : env.runExit gitAddArgs (some BLOG_ROOT) = 0
    · simp [afterImages, h5, h6] at h
      exact ⟨h5, h6, afterAdd_ok_inv _ _ _ _ h⟩
    · exfalso; simp [afterImages, h5, h6] at h
  · exfalso; simp [afterImages, h5] at h

/-- Inversion of a successful run: `main` only returns normally when both
directory checks pass, every invoked command exits 0, and the counter
parses; the message and branch are then determined. -/
theorem mainRun_ok_inv (env : Env) (msg branch : String)
    (h : (mainRun env).2 = Outcome.ok msg branch) :
    env.isDir OBS_POSTS = true ∧ env.isDir BLOG_ROOT = true ∧
    env.runExit rsyncArgs none = 0 ∧
    (env.pathExists IMAGES_PY = true → env.runExit imagesArgs (some BLOG_ROOT) = 0) ∧
    env.runExit hugoArgs (some BLOG_ROOT) = 0 ∧
    env.runExit gitAddArgs (some BLOG_ROOT) = 0 ∧
    ∃ N, counterLast env = some N ∧
      msg = "Post update " ++ toString (N + 1) ∧
      env.runExit (gitCommitArgs msg) (some BLOG_ROOT) = 0 ∧
      env.outExit branchArgs (some BLOG_ROOT) = 0 ∧
      branch = branchOf env ∧
      env.runExit (gitPushArgs branch) (some BLOG_ROOT) = 0 := by
  cases hd1 : env.isDir OBS_POSTS with
  | false => simp [mainRun, hd1] at h
  | true =>
  cases hd2 : env.isDir BLOG_ROOT with
  | false => simp [mainRun, hd1, hd2] at h
  | true =>
  by_cases h3 : env.runExit rsyncArgs none = 0
  · cases him : env.pathExists IMAGES_PY with
    | true =>
      by_cases h4 : env.runExit imagesArgs (some BLOG_ROOT) = 0
      · have h' : (afterImages env
            [Event.cmd rsyncArgs none, Event.sleepEv,
             Event.cmd imagesArgs (some BLOG_ROOT), Event.sleepEv]).2 =
            Outcome.ok msg branch := by
          simpa [mainRun, hd1, hd2, h3, him, h4] using h
        obtain ⟨h5, h6, rest⟩ := afterImages_inv _ _ _ _ h'
        exact ⟨rfl, rfl, h3, fun _ => h4, h5, h6, rest⟩
      · exfalso; simp [mainRun, hd1, hd2, h3, him, h4] at h
    | false =>
      have h' : (afterImages env [Event.cmd rsyncArgs none, Event.sleepEv]).2 =
          Outcome.ok msg branch := by
        simpa [mainRun, hd1, hd2, h3, him] using h
      obtain ⟨h5, h6, rest⟩ := afterImages_inv _ _ _ _ h'
      exact ⟨rfl, rfl, h3, fun hh => by simp [him] at hh, h5, h6, rest⟩
  · exfalso; simp [mainRun, hd1, hd2, h3] at h

/-- takeWhile over a trace whose prefix satisfies the predicate and whose
next element does not: exactly the prefix is kept. -/
theorem takeWhile_stop (f : Event → Bool) (pre post : List Event)
    (hpre : ∀ e ∈ pre, f e = true) (a : Event) (ha : f a = false) :
    (pre ++ a :: post).takeWhile f = pre := by
  induction pre with
  | nil => simp [List.takeWhile, ha]
  | cons x xs ih =>
    have hx : f x = true := hpre x (by simp)
    have hxs : ∀ e ∈ xs, f e = true := fun e he => hpre e (List.mem_cons_of_mem _ he)
    simp [List.takeWhile, hx, ih hxs]

/-- With a parseable counter, the publish tail always appends first the
counter write of `toString (N + 1)` and then the commit command carrying
the message, whatever happens afterwards; no later event writes the
counter file again. -/
theorem afterAdd_trace (env : Env) (t : List Event) (N : Int)
    (h7 : counterLast env = some N) :
    ∃ rest, (afterAdd env t).1 =
      t ++ Event.writeFile COUNTER_FN (toString (N + 1)) ::
      Event.cmd (gitCommitArgs ("Post update " ++ toString (N + 1))) (some BLOG_ROOT) :: rest ∧
      ∀ e ∈ rest, isCounterWrite e = false := by
  have hnm : next_commit_msg env =
      Except.ok ("Post update " ++ toString (N + 1), toString (N + 1)) := by
    simp [next_commit_msg, h7]
  by_cases h8 : env.runExit (gitCommitArgs ("Post update " ++ toString (N + 1)))
      (some BLOG_ROOT) = 0
  · by_cases h9 : env.outExit branchArgs (some BLOG_ROOT) = 0
    · refine ⟨[Event.queryCmd branchArgs (some BLOG_ROOT),
        Event.cmd (gitPushArgs (branchOf env)) (some BLOG_ROOT)], ?_, ?_⟩
      · by_cases h10 : env.runExit (gitPushArgs (branchOf env)) (some BLOG_ROOT) = 0
        · simp [afterAdd, hnm, h8, h9, h10]
        · simp [afterAdd, hnm, h8, h9, h10]
      · simp [isCounterWrite]
    · refine ⟨[Event.queryCmd branchArgs (some BLOG_ROOT)], ?_, ?_⟩
      · simp [afterAdd, hnm, h8, h9]
      · simp [isCounterWrite]
  · refine ⟨[], ?_, ?_⟩
    · simp [afterAdd, hnm, h8]
    · simp

/-! ## Claims -/

/-- Claim C1, counterexample to the claim as stated.  The claim says a
failed external command makes the whole process terminate with a non-zero
exit status.  In `envRsyncFail` the rsync invocation exits 2: the failure
line naming exit code 2 is printed without a traceback, but the
`except subprocess.CalledProcessError` handler swallows the exception and
`main`'s caller falls off the end of the script, so the interpreter exits
with status 0, not non-zero. -/
theorem C1_counterexample :
    (mainRun envRsyncFail).2 = Outcome.cmdFailed 2 ∧
    (processRun envRsyncFail).finalLine = "❌  Command failed with exit-code 2" ∧
    (processRun envRsyncFail).tracebackShown = false ∧
    (processRun envRsyncFail).exitStatus = 0 := by
  refine ⟨by decide, by decide, by decide, by decide⟩

/-- Claim C1, amended.  If any invoked external command exits with a
non-zero status, the process stops and prints an explicit failure line
containing that command's exit code without a stack trace, but terminates
with exit status zero, because the top-level handler catches the failure;
on full success it prints a success line naming the commit message and the
branch and also exits zero. -/
theorem C1_exit_behavior (env : Env) :
    (∀ c : Int, (mainRun env).2 = Outcome.cmdFailed c →
       processRun env =
         { exitStatus := 0,
           finalLine := "❌  Command failed with exit-code " ++ toString c,
           tracebackShown := false, caughtByHandler := true }) ∧
    (∀ msg branch : String, (mainRun env).2 = Outcome.ok msg branch →
       processRun env =
         { exitStatus := 0,
           finalLine := "✅  Done!  (" ++ msg ++ " → pushed to " ++ branch ++ ")",
           tracebackShown := false, caughtByHandler := false }) := by
  constructor
  · intro c h
    simp [processRun, h, pythonExit]
  · intro msg branch h
    simp [processRun, h, pythonExit]

/-- Claim C1's amended theorem, instantiated: a fully successful run prints
the success line naming the commit message and the branch and exits 0. -/
theorem C1_exit_behavior_witness :
    processRun envAllOk =
      { exitStatus := 0,
        finalLine := "✅  Done!  (" ++ "Post update 1" ++ " → pushed to " ++ "main" ++ ")",
        tracebackShown := false, caughtByHandler := false } :=
  (C1_exit_behavior envAllOk).2 "Post update 1" "main" (by decide)

/-- Claim C2: the commit counter treats an absent file or empty (stripped)
content as zero; for a prior parsed value `N` it writes back `toString
(N + 1)` (the pair's second component is the text written over the file)
and returns exactly the message `"Post update " ++ toString (N + 1)`.
In particular an absent file yields content `"1"` with message
`"Post update 1"`, and content `"41"` yields content `"42"` with message
`"Post update 42"`. -/
theorem C2_commit_counter :
    (∀ env : Env, ∀ N : Int,
       env.pathExists COUNTER_FN = true →
       pyInt (pyStrip (env.readText COUNTER_FN)) = some N →
       next_commit_msg env =
         Except.ok ("Post update " ++ toString (N + 1), toString (N + 1))) ∧
    (∀ env : Env, env.pathExists COUNTER_FN = false →
       next_commit_msg env = Except.ok ("Post update 1", "1")) ∧
    (∀ env : Env, env.pathExists COUNTER_FN = true →
       pyStrip (env.readText COUNTER_FN) = "" →
       next_commit_msg env = Except.ok ("Post update 1", "1")) ∧
    (∀ env : Env, env.pathExists COUNTER_FN = true →
       env.readText COUNTER_FN = "41" →
       next_commit_msg env = Except.ok ("Post update 42", "42")) := by
  have p1 : ∀ env : Env, ∀ N : Int,
      env.pathExists COUNTER_FN = true →
      pyInt (pyStrip (env.readText COUNTER_FN)) = some N →
      next_commit_msg env =
        Except.ok ("Post update " ++ toString (N + 1), toString (N + 1)) := by
    intro env N hex hN
    have hne : ¬ pyStrip (env.readText COUNTER_FN) = "" := by
      intro hempty
      rw [hempty] at hN
      simp [pyInt, digitsToNat] at hN
    simp [next_commit_msg, counterLast, hex, hne, hN]
  refine ⟨p1, ?_, ?_, ?_⟩
  · intro env hex
    simp [next_commit_msg, counterLast, hex]
    exact ⟨by decide, by decide⟩
  · intro env hex hempty
    simp [next_commit_msg, counterLast, hex, hempty]
    exact ⟨by decide, by decide⟩
  · intro env hex h41
    rw [p1 env 41 hex (by rw [h41]; decide)]
    rfl

/-- Claim C2's theorem, instantiated at a counter file holding `"41"`. -/
theorem C2_commit_counter_witness :
    next_commit_msg env41 = Except.ok ("Post update 42", "42") :=
  C2_commit_counter.2.2.2 env41 (by decide) (by decide)

/-- Claim C3: when the counter file exists and its stripped content is
nonempty but not parseable as an integer, `next_commit_msg` raises the
value-conversion error; in a run that reaches the counter step, `main`
ends with that uncaught `ValueError`, which the top-level
`except subprocess.CalledProcessError` handler does not catch: the process
terminates with exit status 1 showing a traceback, with no retry and no
recovery. -/
theorem C3_counter_parse_fatal (env : Env)
    (hex : env.pathExists COUNTER_FN = true)
    (hne : pyStrip (env.readText COUNTER_FN) ≠ "")
    (hbad : pyInt (pyStrip (env.readText COUNTER_FN)) = none)
    (h1 : env.isDir OBS_POSTS = true) (h2 : env.isDir BLOG_ROOT = true)
    (h3 : env.runExit rsyncArgs none = 0)
    (h4 : env.pathExists IMAGES_PY = true → env.runExit imagesArgs (some BLOG_ROOT) = 0)
    (h5 : env.runExit hugoArgs (some BLOG_ROOT) = 0)
    (h6 : env.runExit gitAddArgs (some BLOG_ROOT) = 0) :
    next_commit_msg env = Except.error () ∧
    (mainRun env).2 = Outcome.valueError ∧
    processRun env =
      { exitStatus := 1, finalLine := "Traceback: ValueError",
        tracebackShown := true, caughtByHandler := false } := by
  have hcl : counterLast env = none := by
    simp [counterLast, hex, hne, hbad]
  have hnm : next_commit_msg env = Except.error () := by
    simp [next_commit_msg, hcl]
  have hm : mainRun env = afterAdd env (preTrace env) :=
    mainRun_reach_add env h1 h2 h3 h4 h5 h6
  have ho : (mainRun env).2 = Outcome.valueError := by
    rw [hm]
    simp [afterAdd, hnm]
  exact ⟨hnm, ho, by simp [processRun, ho, pythonExit]⟩

/-- Claim C3's theorem, instantiated at a counter file holding `"abc"`. -/
theorem C3_counter_parse_fatal_witness :
    next_commit_msg envBadCounter = Except.error () ∧
    (mainRun envBadCounter).2 = Outcome.valueError ∧
    processRun envBadCounter =
      { exitStatus := 1, finalLine := "Traceback: ValueError",
        tracebackShown := true, caughtByHandler := false } :=
  C3_counter_parse_fatal envBadCounter (by decide) (by decide) (by decide)
    (by decide) (by decide) (by decide) (fun h => by simp [envBadCounter, mkEnv] at h)
    (by decide) (by decide)

/-- Claim C4: if either configured directory is missing (or not a
directory), `main` raises `SystemExit` with a descriptive message before
performing any event at all — no external command, no sleep, no file
write — and the process exits with status 1 and no traceback. -/
theorem C4_path_precondition (env : Env)
    (h : env.isDir OBS_POSTS = false ∨ env.isDir BLOG_ROOT = false) :
    (mainRun env).1 = [] ∧
    (∃ m, (mainRun env).2 = Outcome.systemExit m ∧
       (m = "Obsidian posts path not found: " ++ OBS_POSTS ∨
        m = "Hugo project path not found: " ++ BLOG_ROOT)) ∧
    (processRun env).exitStatus = 1 ∧
    (processRun env).tracebackShown = false := by
  cases hd1 : env.isDir OBS_POSTS with
  | false =>
    refine ⟨by simp [mainRun, hd1],
      ⟨_, by simp [mainRun, hd1], Or.inl rfl⟩, ?_, ?_⟩
    · simp [processRun, mainRun, hd1, pythonExit]
    · simp [processRun, mainRun, hd1, pythonExit]
  | true =>
    have hd2 : env.isDir BLOG_ROOT = false := by
      rcases h with h | h
      · simp [hd1] at h
      · exact h
    refine ⟨by simp [mainRun, hd1, hd2],
      ⟨_, by simp [mainRun, hd1, hd2], Or.inr rfl⟩, ?_, ?_⟩
    · simp [processRun, mainRun, hd1, hd2, pythonExit]
    · simp [processRun, mainRun, hd1, hd2, pythonExit]

/-- Claim C4's theorem, instantiated at a missing Obsidian posts
directory. -/
theorem C4_path_precondition_witness :
    (mainRun envNoObsDir).1 = [] ∧
    (∃ m, (mainRun envNoObsDir).2 = Outcome.systemExit m ∧
       (m = "Obsidian posts path not found: " ++ OBS_POSTS ∨
        m = "Hugo project path not found: " ++ BLOG_ROOT)) ∧
    (processRun envNoObsDir).exitStatus = 1 ∧
    (processRun envNoObsDir).tracebackShown = false :=
  C4_path_precondition envNoObsDir (Or.inl (by decide))

/-- Claim C5: when the hugo build exits non-zero after the earlier steps
succeeded, `main` fails with that exit code; the trace is exactly the
mirror command, the sleeps, the optional images invocation and the hugo
invocation.  The rsync mirror invocation has already happened and nothing
in the trace undoes it, and no git command, no branch query and no counter
write ever executes. -/
theorem C5_build_failure_stops_publish (env : Env) (c : Int)
    (h1 : env.isDir OBS_POSTS = true) (h2 : env.isDir BLOG_ROOT = true)
    (h3 : env.runExit rsyncArgs none = 0)
    (h4 : env.pathExists IMAGES_PY = true → env.runExit imagesArgs (some BLOG_ROOT) = 0)
    (h5 : env.runExit hugoArgs (some BLOG_ROOT) = c) (hc : c ≠ 0) :
    (mainRun env).2 = Outcome.cmdFailed c ∧
    (mainRun env).1 =
      [Event.cmd rsyncArgs none, Event.sleepEv] ++
      (if env.pathExists IMAGES_PY = true then
         [Event.cmd imagesArgs (some BLOG_ROOT), Event.sleepEv] else []) ++
      [Event.cmd hugoArgs (some BLOG_ROOT)] ∧
    Event.cmd rsyncArgs none ∈ (mainRun env).1 ∧
    (∀ e ∈ (mainRun env).1, isGitCmd e = false ∧ isCounterWrite e = false) := by
  cases him : env.pathExists IMAGES_PY with
  | true =>
    have hm : mainRun env =
        ([Event.cmd rsyncArgs none, Event.sleepEv,
          Event.cmd imagesArgs (some BLOG_ROOT), Event.sleepEv,
          Event.cmd hugoArgs (some BLOG_ROOT)], Outcome.cmdFailed c) := by
      simp [mainRun, afterImages, h1, h2, h3, him, h4 him, h5, hc]
    have ht : (mainRun env).1 =
        [Event.cmd rsyncArgs none, Event.sleepEv,
         Event.cmd imagesArgs (some BLOG_ROOT), Event.sleepEv,
         Event.cmd hugoArgs (some BLOG_ROOT)] := by rw [hm]
    refine ⟨by rw [hm], by rw [ht]; simp [him], by rw [ht]; decide,
      by rw [ht]; decide⟩
  | false =>
    have hm : mainRun env =
        ([Event.cmd rsyncArgs none, Event.sleepEv,
          Event.cmd hugoArgs (some BLOG_ROOT)], Outcome.cmdFailed c) := by
      simp [mainRun, afterImages, h1, h2, h3, him, h5, hc]
    have ht : (mainRun env).1 =
        [Event.cmd rsyncArgs none, Event.sleepEv,
         Event.cmd hugoArgs (some BLOG_ROOT)] := by rw [hm]
    refine ⟨by rw [hm], by rw [ht]; simp [him], by rw [ht]; decide,
      by rw [ht]; decide⟩

/-- Claim C5's theorem, instantiated: hugo exits 255 with images.py
present. -/
theorem C5_build_failure_stops_publish_witness :
    (mainRun envHugoFail).2 = Outcome.cmdFailed 255 ∧
    (∀ e ∈ (mainRun envHugoFail).1, isGitCmd e = false ∧ isCounterWrite e = false) :=
  ⟨(C5_build_failure_stops_publish envHugoFail 255 (by decide) (by decide)
      (by decide) (fun _ => by decide) (by decide) (by decide)).1,
   (C5_build_failure_stops_publish envHugoFail 255 (by decide) (by decide)
      (by decide) (fun _ => by decide) (by decide) (by decide)).2.2.2⟩

/-- Claim C6: with the directory checks and rsync succeeded, if
`images.py` exists the helper is invoked via the command runner with the
site root as working directory, right after the mirror step's sleep; if it
does not exist, the images command never appears in the trace and the
build (hugo) invocation directly follows the mirror step's sleep. -/
theorem C6_images_step_optional (env : Env)
    (h1 : env.isDir OBS_POSTS = true) (h2 : env.isDir BLOG_ROOT = true)
    (h3 : env.runExit rsyncArgs none = 0) :
    (env.pathExists IMAGES_PY = true →
       ∃ r, (mainRun env).1 =
         Event.cmd rsyncArgs none :: Event.sleepEv ::
         Event.cmd imagesArgs (some BLOG_ROOT) :: r) ∧
    (env.pathExists IMAGES_PY = false →
       Event.cmd imagesArgs (some BLOG_ROOT) ∉ (mainRun env).1 ∧
       ∃ r, (mainRun env).1 =
         Event.cmd rsyncArgs none :: Event.sleepEv ::
         Event.cmd hugoArgs (some BLOG_ROOT) :: r) := by
  constructor
  · intro him
    by_cases h4 : env.runExit imagesArgs (some BLOG_ROOT) = 0
    · have hm : (mainRun env).1 = (afterImages env
          [Event.cmd rsyncArgs none, Event.sleepEv,
           Event.cmd imagesArgs (some BLOG_ROOT), Event.sleepEv]).1 := by
        simp [mainRun, h1, h2, h3, him, h4]
      obtain ⟨r, hr, _⟩ := afterImages_extends env
        [Event.cmd rsyncArgs none, Event.sleepEv,
         Event.cmd imagesArgs (some BLOG_ROOT), Event.sleepEv]
      exact ⟨Event.sleepEv :: Event.cmd hugoArgs (some BLOG_ROOT) :: r,
        by rw [hm, hr]; rfl⟩
    · have hm : (mainRun env).1 =
          [Event.cmd rsyncArgs none, Event.sleepEv,
           Event.cmd imagesArgs (some BLOG_ROOT)] := by
        simp [mainRun, h1, h2, h3, him, h4]
      exact ⟨[], by rw [hm]⟩
  · intro him
    have hm : (mainRun env).1 = (afterImages env
        [Event.cmd rsyncArgs none, Event.sleepEv]).1 := by
      simp [mainRun, h1, h2, h3, him]
    obtain ⟨r, hr, hall⟩ := afterImages_extends env
      [Event.cmd rsyncArgs none, Event.sleepEv]
    constructor
    · intro hmem
      rw [hm, hr] at hmem
      rcases List.mem_append.mp hmem with hA | hB
      · exact absurd hA (by decide)
      · rcases List.mem_cons.mp hB with hB1 | hB2
        · exact absurd hB1 (by decide)
        · rcases hall _ hB2 with ha | ha | ha
          · exact absurd ha (by decide)
          · exact absurd ha (by decide)
          · exact absurd ha (by decide)
    · exact ⟨r, by rw [hm, hr]; rfl⟩

/-- Claim C6's theorem, instantiated: with images.py present the trace
begins mirror, sleep, images invocation. -/
theorem C6_images_step_optional_witness :
    ∃ r, (mainRun env41).1 =
      Event.cmd rsyncArgs none :: Event.sleepEv ::
      Event.cmd imagesArgs (some BLOG_ROOT) :: r :=
  (C6_images_step_optional env41 (by decide) (by decide) (by decide)).1 (by decide)

/-- Claim C7: in every successful run the trace is exactly the pre-publish
events (ending with `git add .`) followed by the counter write, the commit
with the counter's message, the branch query, and the push of the queried
branch; the push goes to the remote named origin; and in every run
whatsoever the publish operations that execute form an in-order prefix of
stage, commit, branch query, push, so any failure aborts all
subsequent operations of the sequence. -/
theorem C7_publish_order :
    (∀ env : Env, ∀ msg branch : String,
       (mainRun env).2 = Outcome.ok msg branch →
       ∃ N : Int, counterLast env = some N ∧
         msg = "Post update " ++ toString (N + 1) ∧
         branch = branchOf env ∧
         (mainRun env).1 =
           preTrace env ++
           [Event.writeFile COUNTER_FN (toString (N + 1)),
            Event.cmd (gitCommitArgs msg) (some BLOG_ROOT),
            Event.queryCmd branchArgs (some BLOG_ROOT),
            Event.cmd (gitPushArgs branch) (some BLOG_ROOT)]) ∧
    (∀ b : String, gitPushArgs b = ["git", "push", "origin", b]) ∧
    (∀ env : Env,
       (pubOps (mainRun env).1).isPrefixOf ["add", "commit", "branch", "push"] = true) := by
  refine ⟨?_, fun b => rfl, pubOps_mainRun⟩
  intro env msg branch hok
  obtain ⟨h1, h2, h3, h4, h5, h6, N, h7, hmsg, h8, h9, hbr, h10⟩ :=
    mainRun_ok_inv env msg branch hok
  subst hmsg
  subst hbr
  have hm := mainRun_reach_add env h1 h2 h3 h4 h5 h6
  have ha := afterAdd_ok env (preTrace env) N h7 h8 h9 h10
  refine ⟨N, h7, rfl, rfl, ?_⟩
  rw [hm, ha]

/-- Claim C7's theorem, instantiated at a fully successful run. -/
theorem C7_publish_order_witness :
    ∃ N : Int, counterLast envAllOk = some N ∧
      "Post update 1" = "Post update " ++ toString (N + 1) ∧
      "main" = branchOf envAllOk ∧
      (mainRun envAllOk).1 =
        preTrace envAllOk ++
        [Event.writeFile COUNTER_FN (toString (N + 1)),
         Event.cmd (gitCommitArgs "Post update 1") (some BLOG_ROOT),
         Event.queryCmd branchArgs (some BLOG_ROOT),
         Event.cmd (gitPushArgs "main") (some BLOG_ROOT)] :=
  C7_publish_order.1 envAllOk "Post update 1" "main" (by decide)

/-- Claim C8: whenever the path checks pass, the first event of the run is
the rsync invocation with archive mode (`-av`) and delete-extraneous mode
(`--delete`), whose source argument is the notes path with a trailing
separator and whose destination argument is the posts path without one. -/
theorem C8_mirror_invocation (env : Env)
    (h1 : env.isDir OBS_POSTS = true) (h2 : env.isDir BLOG_ROOT = true) :
    (∃ r, (mainRun env).1 = Event.cmd rsyncArgs none :: r) ∧
    rsyncArgs = ["rsync", "-av", "--delete", OBS_POSTS ++ "/", DEST_POSTS] ∧
    (OBS_POSTS ++ "/").data.getLast? = some '/' ∧
    DEST_POSTS.data.getLast? ≠ some '/' := by
  refine ⟨?_, rfl, by decide, by decide⟩
  by_cases h3 : env.runExit rsyncArgs none = 0
  · cases him : env.pathExists IMAGES_PY with
    | true =>
      by_cases h4 : env.runExit imagesArgs (some BLOG_ROOT) = 0
      · have hm : (mainRun env).1 = (afterImages env
            [Event.cmd rsyncArgs none, Event.sleepEv,
             Event.cmd imagesArgs (some BLOG_ROOT), Event.sleepEv]).1 := by
          simp [mainRun, h1, h2, h3, him, h4]
        obtain ⟨r, hr, _⟩ := afterImages_extends env
          [Event.cmd rsyncArgs none, Event.sleepEv,
           Event.cmd imagesArgs (some BLOG_ROOT), Event.sleepEv]
        exact ⟨Event.sleepEv :: Event.cmd imagesArgs (some BLOG_ROOT) ::
          Event.sleepEv :: Event.cmd hugoArgs (some BLOG_ROOT) :: r,
          by rw [hm, hr]; rfl⟩
      · have hm : (mainRun env).1 =
            [Event.cmd rsyncArgs none, Event.sleepEv,
             Event.cmd imagesArgs (some BLOG_ROOT)] := by
          simp [mainRun, h1, h2, h3, him, h4]
        exact ⟨[Event.sleepEv, Event.cmd imagesArgs (some BLOG_ROOT)], by rw [hm]⟩
    | false =>
      have hm : (mainRun env).1 = (afterImages env
          [Event.cmd rsyncArgs none, Event.sleepEv]).1 := by
        simp [mainRun, h1, h2, h3, him]
      obtain ⟨r, hr, _⟩ := afterImages_extends env
        [Event.cmd rsyncArgs none, Event.sleepEv]
      exact ⟨Event.sleepEv :: Event.cmd hugoArgs (some BLOG_ROOT) :: r,
        by rw [hm, hr]; rfl⟩
  · have hm : (mainRun env).1 = [Event.cmd rsyncArgs none] := by
      simp [mainRun, h1, h2, h3]
    exact ⟨[], by rw [hm]⟩

/-- Claim C8's theorem, instantiated. -/
theorem C8_mirror_invocation_witness :
    (∃ r, (mainRun envAllOk).1 = Event.cmd rsyncArgs none :: r) ∧
    rsyncArgs = ["rsync", "-av", "--delete", OBS_POSTS ++ "/", DEST_POSTS] ∧
    (OBS_POSTS ++ "/").data.getLast? = some '/' ∧
    DEST_POSTS.data.getLast? ≠ some '/' :=
  C8_mirror_invocation envAllOk (by decide) (by decide)

/-- Claim C9: in every successful run the `git add .` event happens before
the counter write, so the content staged at the moment of the add is the
counter file's pre-run content — the freshly incremented value is not part
of that run's commit — and after the run the counter file on disk holds
`toString (N + 1)`, one ahead of the staged value `N`, while the commit
message names `N + 1`. -/
theorem C9_stage_before_counter_write (env : Env) (msg branch : String) (N : Int)
    (hok : (mainRun env).2 = Outcome.ok msg branch)
    (hex : env.pathExists COUNTER_FN = true)
    (hN : pyInt (pyStrip (env.readText COUNTER_FN)) = some N) :
    stagedAtAdd env = some (env.readText COUNTER_FN) ∧
    counterAfter (initCounter env) (mainRun env).1 = some (toString (N + 1)) ∧
    msg = "Post update " ++ toString (N + 1) := by
  have hne : ¬ pyStrip (env.readText COUNTER_FN) = "" := by
    intro hempty
    rw [hempty] at hN
    simp [pyInt, digitsToNat] at hN
  have h7 : counterLast env = some N := by
    simp [counterLast, hex, hne, hN]
  obtain ⟨h1, h2, h3, h4, h5, h6, N', h7', hmsg, h8, h9, hbr, h10⟩ :=
    mainRun_ok_inv env msg branch hok
  have hNN : N' = N := by
    rw [h7] at h7'
    exact (Option.some.inj h7').symm
  rw [hNN] at hmsg
  have hm := mainRun_reach_add env h1 h2 h3 h4 h5 h6
  obtain ⟨rest, htr, hrest⟩ := afterAdd_trace env (preTrace env) N h7
  have htrace : (mainRun env).1 = preTrace env ++
      Event.writeFile COUNTER_FN (toString (N + 1)) ::
      Event.cmd (gitCommitArgs ("Post update " ++ toString (N + 1))) (some BLOG_ROOT) ::
      rest := by
    rw [hm]
    exact htr
  refine ⟨?_, ?_, hmsg⟩
  · unfold stagedAtAdd
    cases him : env.pathExists IMAGES_PY with
    | true =>
      have hpre : preTrace env =
          [Event.cmd rsyncArgs none, Event.sleepEv,
           Event.cmd imagesArgs (some BLOG_ROOT), Event.sleepEv,
           Event.cmd hugoArgs (some BLOG_ROOT), Event.sleepEv] ++
          [Event.cmd gitAddArgs (some BLOG_ROOT)] := by
        simp [preTrace, him]
      have htr2 : (mainRun env).1 =
          [Event.cmd rsyncArgs none, Event.sleepEv,
           Event.cmd imagesArgs (some BLOG_ROOT), Event.sleepEv,
           Event.cmd hugoArgs (some BLOG_ROOT), Event.sleepEv] ++
          Event.cmd gitAddArgs (some BLOG_ROOT) ::
          (Event.writeFile COUNTER_FN (toString (N + 1)) ::
           Event.cmd (gitCommitArgs ("Post update " ++ toString (N + 1))) (some BLOG_ROOT) ::
           rest) := by
        rw [htrace, hpre]
        simp
      rw [htr2, takeWhile_stop _ _ _ (by decide) _ (by decide),
        counterAfter_no_writes _ _ (by decide)]
      simp [initCounter, hex]
    | false =>
      have hpre : preTrace env =
          [Event.cmd rsyncArgs none, Event.sleepEv,
           Event.cmd hugoArgs (some BLOG_ROOT), Event.sleepEv] ++
          [Event.cmd gitAddArgs (some BLOG_ROOT)] := by
        simp [preTrace, him]
      have htr2 : (mainRun env).1 =
          [Event.cmd rsyncArgs none, Event.sleepEv,
           Event.cmd hugoArgs (some BLOG_ROOT), Event.sleepEv] ++
          Event.cmd gitAddArgs (some BLOG_ROOT) ::
          (Event.writeFile COUNTER_FN (toString (N + 1)) ::
           Event.cmd (gitCommitArgs ("Post update " ++ toString (N + 1))) (some BLOG_ROOT) ::
           rest) := by
        rw [htrace, hpre]
        simp
      rw [htr2, takeWhile_stop _ _ _ (by decide) _ (by decide),
        counterAfter_no_writes _ _ (by decide)]
      simp [initCounter, hex]
  · rw [htrace, counterAfter_append,
      counterAfter_no_writes _ _ (preTrace_no_writes env)]
    have hstep : counterAfter (initCounter env)
        (Event.writeFile COUNTER_FN (toString (N + 1)) ::
         Event.cmd (gitCommitArgs ("Post update " ++ toString (N + 1))) (some BLOG_ROOT) ::
         rest) = counterAfter (some (toString (N + 1))) rest := by
      simp [counterAfter, applyEvent]
    rw [hstep, counterAfter_no_writes _ _ hrest]

/-- Claim C9's theorem, instantiated at a counter file holding `"41"`. -/
theorem C9_stage_before_counter_write_witness :
    stagedAtAdd env41 = some (env41.readText COUNTER_FN) ∧
    counterAfter (initCounter env41) (mainRun env41).1 = some (toString ((41 : Int) + 1)) ∧
    "Post update 42" = "Post update " ++ toString ((41 : Int) + 1) :=
  C9_stage_before_counter_write env41 "Post update 42" "main" 41
    (by decide) (by decide) (by decide)

/-- Claim C10: in any run that reaches the publish phase with a parseable
counter value `N`, the counter write of `toString (N + 1)` is performed
immediately before the commit command is invoked, and the counter file
ends the run holding `toString (N + 1)` no matter what happens afterwards;
in particular, if the commit fails, or the commit and branch query succeed
but the push fails, the run ends with that command's failure while the
counter file still holds the incremented value — a failed run consumes a
sequence number. -/
theorem C10_counter_persisted_early (env : Env) (N : Int)
    (h1 : env.isDir OBS_POSTS = true) (h2 : env.isDir BLOG_ROOT = true)
    (h3 : env.runExit rsyncArgs none = 0)
    (h4 : env.pathExists IMAGES_PY = true → env.runExit imagesArgs (some BLOG_ROOT) = 0)
    (h5 : env.runExit hugoArgs (some BLOG_ROOT) = 0)
    (h6 : env.runExit gitAddArgs (some BLOG_ROOT) = 0)
    (h7 : counterLast env = some N) :
    (∃ rest, (mainRun env).1 =
       preTrace env ++
       Event.writeFile COUNTER_FN (toString (N + 1)) ::
       Event.cmd (gitCommitArgs ("Post update " ++ toString (N + 1))) (some BLOG_ROOT) ::
       rest) ∧
    counterAfter (initCounter env) (mainRun env).1 = some (toString (N + 1)) ∧
    (∀ c : Int, c ≠ 0 →
       env.runExit (gitCommitArgs ("Post update " ++ toString (N + 1))) (some BLOG_ROOT) = c →
       (mainRun env).2 = Outcome.cmdFailed c) ∧
    (∀ c : Int, c ≠ 0 →
       env.runExit (gitCommitArgs ("Post update " ++ toString (N + 1))) (some BLOG_ROOT) = 0 →
       env.outExit branchArgs (some BLOG_ROOT) = 0 →
       env.runExit (gitPushArgs (branchOf env)) (some BLOG_ROOT) = c →
       (mainRun env).2 = Outcome.cmdFailed c) := by
  have hm := mainRun_reach_add env h1 h2 h3 h4 h5 h6
  have hnm : next_commit_msg env =
      Except.ok ("Post update " ++ toString (N + 1), toString (N + 1)) := by
    simp [next_commit_msg, h7]
  obtain ⟨rest, htr, hrest⟩ := afterAdd_trace env (preTrace env) N h7
  have htrace : (mainRun env).1 = preTrace env ++
      Event.writeFile COUNTER_FN (toString (N + 1)) ::
      Event.cmd (gitCommitArgs ("Post update " ++ toString (N + 1))) (some BLOG_ROOT) ::
      rest := by
    rw [hm]
    exact htr
  refine ⟨⟨rest, htrace⟩, ?_, ?_, ?_⟩
  · rw [htrace, counterAfter_append,
      counterAfter_no_writes _ _ (preTrace_no_writes env)]
    have hstep : counterAfter (initCounter env)
        (Event.writeFile COUNTER_FN (toString (N + 1)) ::
         Event.cmd (gitCommitArgs ("Post update " ++ toString (N + 1))) (some BLOG_ROOT) ::
         rest) = counterAfter (some (toString (N + 1))) rest := by
      simp [counterAfter, applyEvent]
    rw [hstep, counterAfter_no_writes _ _ hrest]
  · intro c hc h8
    rw [hm]
    simp [afterAdd, hnm, h8, hc]
  · intro c hc h8 h9 h10
    rw [hm]
    simp [afterAdd, hnm, h8, h9, h10, hc]

/-- Claim C10's theorem, instantiated: `git commit` fails with exit code 1
while the counter file, previously `"7"`, ends the run holding `"8"`. -/
theorem C10_counter_persisted_early_witness :
    counterAfter (initCounter envCommitFail) (mainRun envCommitFail).1 =
      some (toString ((7 : Int) + 1)) ∧
    (mainRun envCommitFail).2 = Outcome.cmdFailed 1 :=
  ⟨(C10_counter_persisted_early envCommitFail 7 (by decide) (by decide) (by decide)
      (fun h => absurd h (by decide)) (by decide) (by decide) (by decide)).2.1,
   (C10_counter_persisted_early envCommitFail 7 (by decide) (by decide) (by decide)
      (fun h => absurd h (by decide)) (by decide) (by decide) (by decide)).2.2.1 1
      (by decide) (by decide)⟩
